import Mathlib

/-!
Verification of the stroke-capture logic of the OpenGL pencil-drawing
example (`main.cpp`) and of the Qt second-window opener appended to the
same file.

The C++ program keeps file-scope mutable state: window size
(`g_win_w`, `g_win_h`), a mouse-held flag (`g_mouse_down`), the list of
finished strokes (`g_strokes`) and the stroke currently being recorded
(`g_current`).  Input callbacks (`mouse_button_cb`, `cursor_pos_cb`,
`framebuffer_size_cb`) and the main-loop clear command mutate that state.
We embed the state as a structure, each callback as a pure state
transformer, and the per-frame render pass as the list of line-strip
draw calls it issues.  Pixel coordinates (C++ `double`) and normalized
device coordinates (C++ `float`) are embedded as rationals, so the
squared-distance threshold test is exact.
-/

/-- `struct Vec2 { float x, y; }` : a 2D point, coordinates as rationals. -/
structure Vec2 where
  x : ℚ
  y : ℚ
deriving DecidableEq, Repr

/-- The fixed threshold `1e-6f` used by `cursor_pos_cb`. -/
def eps : ℚ := 1 / 1000000

/-- Squared distance `dx*dx + dy*dy` exactly as `cursor_pos_cb` computes it
(`p` is the new point, `last` the previously recorded one). -/
def sqdist (p last : Vec2) : ℚ :=
  (p.x - last.x) * (p.x - last.x) + (p.y - last.y) * (p.y - last.y)

/-- `wnd_to_ndc` : convert window coordinates (pixels, origin top-left) to
NDC, given the stored window size `g_win_w`/`g_win_h` (C++ `int`).
  `x = sx / g_win_w * 2.0 - 1.0`, `y = 1.0 - sy / g_win_h * 2.0`. -/
def wnd_to_ndc (w h : Int) (sx sy : ℚ) : Vec2 :=
  { x := sx / (w : ℚ) * 2 - 1, y := 1 - sy / (h : ℚ) * 2 }

/-- The file-scope mutable state of the drawing app. -/
structure AppState where
  win_w : Int
  win_h : Int
  mouse_down : Bool
  strokes : List (List Vec2)
  current : List Vec2
deriving DecidableEq, Repr

/-- Initial state: `g_win_w = 800, g_win_h = 600`, mouse up, no strokes. -/
def initState : AppState :=
  { win_w := 800, win_h := 600, mouse_down := false, strokes := [], current := [] }

/-- `mouse_button_cb`, `GLFW_PRESS` branch: set the held flag, clear the
current stroke, then append the cursor position converted to NDC.
The cursor position (read via `glfwGetCursorPos`) is passed in. -/
def mouse_press (mx my : ℚ) (s : AppState) : AppState :=
  { s with mouse_down := true,
           current := [wnd_to_ndc s.win_w s.win_h mx my] }

/-- `mouse_button_cb`, `GLFW_RELEASE` branch: drop the held flag; if the
current stroke is non-empty, push it onto `g_strokes` and clear it. -/
def mouse_release (s : AppState) : AppState :=
  if s.current.isEmpty then
    { s with mouse_down := false }
  else
    { s with mouse_down := false,
             strokes := s.strokes ++ [s.current],
             current := [] }

/-- `cursor_pos_cb`: while the mouse is held, convert the position; if the
current stroke is empty push the point, otherwise push it only when the
squared distance from the last recorded point exceeds the threshold. -/
def cursor_move (x y : ℚ) (s : AppState) : AppState :=
  if s.mouse_down then
    match s.current.getLast? with
    | none => { s with current := [wnd_to_ndc s.win_w s.win_h x y] }
    | some last =>
        if sqdist (wnd_to_ndc s.win_w s.win_h x y) last > eps then
          { s with current := s.current ++ [wnd_to_ndc s.win_w s.win_h x y] }
        else s
  else s

/-- `framebuffer_size_cb`: store the new window size (the `glViewport`
call has no effect on the captured state). -/
def framebuffer_size (w h : Int) (s : AppState) : AppState :=
  { s with win_w := w, win_h := h }

/-- The `C` key handler in the main loop:
`g_strokes.clear(); g_current.clear();`. -/
def clear_canvas (s : AppState) : AppState :=
  { s with strokes := [], current := [] }

/-- The input events the callbacks and the main loop react to. -/
inductive Event where
  | press (mx my : ℚ)
  | release
  | move (x y : ℚ)
  | resize (w h : Int)
  | clear
deriving DecidableEq, Repr

/-- One callback dispatch. -/
def step : Event → AppState → AppState
  | .press mx my => mouse_press mx my
  | .release => mouse_release
  | .move x y => cursor_move x y
  | .resize w h => framebuffer_size w h
  | .clear => clear_canvas

/-- A sequence of events, delivered in order by the event loop. -/
def runEvents (evs : List Event) (s : AppState) : AppState :=
  evs.foldl (fun st e => step e st) s

/-- The press→moveⁿ→release gesture as an event list. -/
def gestureEvents (mx my : ℚ) (moves : List (ℚ × ℚ)) : List Event :=
  Event.press mx my :: moves.map (fun q => Event.move q.1 q.2) ++ [Event.release]

/-- Adjacent points of `g_current` are farther apart than the threshold. -/
def farApart (a b : Vec2) : Prop := sqdist b a > eps

instance (a b : Vec2) : Decidable (farApart a b) := by
  unfold farApart
  infer_instance

/-- The stroke-spacing invariant on the in-progress stroke. -/
def strokeInv (s : AppState) : Prop :=
  List.Chain' farApart s.current

instance (s : AppState) : Decidable (strokeInv s) := by
  unfold strokeInv
  infer_instance

/-- The render pass over `g_strokes`: each stroke with fewer than two
points is skipped (`continue`), every other stroke is uploaded and drawn
as one `GL_LINE_STRIP` call; we record the uploaded vertex list per call. -/
def renderStrokes : List (List Vec2) → List (List Vec2)
  | [] => []
  | stk :: rest =>
      if stk.length < 2 then renderStrokes rest
      else stk :: renderStrokes rest

/-- One frame of the render pass: all finished strokes, then the current
stroke if it has at least two points. -/
def renderFrame (s : AppState) : List (List Vec2) :=
  renderStrokes s.strokes ++
    (if s.current.length ≥ 2 then [s.current] else [])

/-!
Initialization and error handling of `main` (C8).  The environment
records which fallible library calls succeed; the outcome records
whether `main` returns early (and with what value) before reaching the
main loop, together with the messages written to `std::cerr`.
-/

/-- Success/failure of each fallible initialization step of `main`. -/
structure InitEnv where
  glfwInit_ok : Bool
  window_ok : Bool
  glad_ok : Bool
  vshader_ok : Bool
  fshader_ok : Bool
  link_ok : Bool
deriving DecidableEq, Repr

/-- Outcome of running `main` up to the main loop: `exitCode = some c`
means the process returned `c` immediately, `none` means execution
continued into the main loop; `diagnostics` lists the `std::cerr`
messages emitted, in order. -/
structure InitOutcome where
  exitCode : Option Int
  diagnostics : List String
deriving DecidableEq, Repr

/-- `compile_shader`: on failure it prints a compile error to `std::cerr`
and falls through (the shader handle is still returned). -/
def compile_shader_diag (ok : Bool) : List String :=
  if ok then [] else ["Shader compile error"]

/-- `create_program`: compiles both shaders, links, prints a link error to
`std::cerr` on failure, and falls through returning the program. -/
def create_program_diag (e : InitEnv) : List String :=
  compile_shader_diag e.vshader_ok ++ compile_shader_diag e.fshader_ok ++
    (if e.link_ok then [] else ["Program link error"])

/-- The initialization sequence of `main`: GLFW init, window creation and
GLAD loading each abort with `return -1` after a `std::cerr` message;
shader program creation only emits diagnostics and execution continues. -/
def main_init (e : InitEnv) : InitOutcome :=
  if !e.glfwInit_ok then
    { exitCode := some (-1), diagnostics := ["Failed to init GLFW"] }
  else if !e.window_ok then
    { exitCode := some (-1), diagnostics := ["Failed to create window"] }
  else if !e.glad_ok then
    { exitCode := some (-1), diagnostics := ["Failed to initialize GLAD"] }
  else
    { exitCode := none, diagnostics := create_program_diag e }

/-!
The Qt `MainWindow` code appended at the end of `main.cpp` (C10).
`MainWindow::MainWindow` initializes `secondWindow(nullptr)`;
`MainWindow::openSecondWindow` allocates a `SecondWindow` only when the
stored pointer is null, then shows, raises and activates it.  We model
the pointer as an optional allocation id and record the side effects of
each invocation as a trace of actions.
-/

/-- The side effects `openSecondWindow` can perform, each tagged with the
allocation id of the window it touches. -/
inductive WinAction where
  | allocWin (id : Nat)
  | showWin (id : Nat)
  | raiseWin (id : Nat)
  | activateWin (id : Nat)
deriving DecidableEq, Repr

/-- The id of the window an action touches. -/
def WinAction.target : WinAction → Nat
  | .allocWin i => i
  | .showWin i => i
  | .raiseWin i => i
  | .activateWin i => i

/-- Whether an action is a `new SecondWindow()` allocation. -/
def WinAction.isAlloc : WinAction → Bool
  | .allocWin _ => true
  | _ => false

/-- The `MainWindow` state the claim depends on: the `secondWindow`
pointer (as an optional allocation id) and a fresh-allocation counter. -/
structure QtState where
  secondWindow : Option Nat
  nextAlloc : Nat
deriving DecidableEq, Repr

/-- `MainWindow::MainWindow` sets `secondWindow(nullptr)`. -/
def mainWindowInit : QtState :=
  { secondWindow := none, nextAlloc := 0 }

/-- `MainWindow::openSecondWindow`: if the pointer is null allocate a new
`SecondWindow`, then `show`, `raise` and `activateWindow` on it. -/
def openSecondWindow (s : QtState) : QtState × List WinAction :=
  match s.secondWindow with
  | none =>
      let i := s.nextAlloc
      ({ secondWindow := some i, nextAlloc := i + 1 },
       [.allocWin i, .showWin i, .raiseWin i, .activateWin i])
  | some i =>
      (s, [.showWin i, .raiseWin i, .activateWin i])

/-- `n` successive invocations of `openSecondWindow`, collecting the
action trace. -/
def openSecondWindowN : Nat → QtState → QtState × List WinAction
  | 0, s => (s, [])
  | n + 1, s =>
      let r := openSecondWindow s
      let r2 := openSecondWindowN n r.1
      (r2.1, r.2 ++ r2.2)

/-! ## Theorems -/

/-- C5: The clear command empties both the completed-strokes list and the
in-progress stroke, for every prior state of those two collections. -/
theorem c5_clear_empties_both (s : AppState) :
    (clear_canvas s).strokes = [] ∧ (clear_canvas s).current = [] :=
  ⟨rfl, rfl⟩

/-- C6: A resize event updates only the stored viewport dimensions; the
completed strokes, the in-progress stroke and the mouse flag are
unchanged by it, for every prior canvas state. -/
theorem c6_resize_preserves_strokes (w h : Int) (s : AppState) :
    (framebuffer_size w h s).win_w = w ∧
    (framebuffer_size w h s).win_h = h ∧
    (framebuffer_size w h s).strokes = s.strokes ∧
    (framebuffer_size w h s).current = s.current ∧
    (framebuffer_size w h s).mouse_down = s.mouse_down :=
  ⟨rfl, rfl, rfl, rfl, rfl⟩

/-- C3: On left-button release the mouse flag drops; an empty in-progress
stroke is never pushed to the completed list (the state only loses the
flag), while any non-empty in-progress stroke — a single-point stroke
included — is appended to the completed list and the in-progress stroke
is reset to empty. -/
theorem c3_release_moves_nonempty (s : AppState) :
    (mouse_release s).mouse_down = false ∧
    (s.current = [] → mouse_release s = { s with mouse_down := false }) ∧
    (s.current ≠ [] →
      (mouse_release s).strokes = s.strokes ++ [s.current] ∧
      (mouse_release s).current = []) := by
  refine ⟨?_, ?_, ?_⟩
  · unfold mouse_release
    by_cases h : s.current.isEmpty <;> simp [h]
  · intro h
    unfold mouse_release
    simp [h]
  · intro h
    unfold mouse_release
    simp [List.isEmpty_iff, h]

/-- C3 witness: releasing over a one-point stroke appends it. -/
theorem c3_release_moves_nonempty_witness :
    (mouse_release { initState with current := [{ x := 0, y := 0 }] }).strokes
      = [] ++ [[{ x := 0, y := 0 }]] ∧
    (mouse_release { initState with current := [{ x := 0, y := 0 }] }).current
      = [] :=
  (c3_release_moves_nonempty _).2.2 (by simp)

/-- C4 counterexample: with stored viewport dimensions (0, 0), converting
the pixel (width, height) = (0, 0) does not yield (1, -1), so the claim
fails for the dimensions (0, 0). -/
theorem c4_zero_size_counterexample :
    ¬ (wnd_to_ndc 0 0 ((0 : Int) : ℚ) ((0 : Int) : ℚ)
        = { x := 1, y := -1 }) := by
  simp only [wnd_to_ndc, Vec2.mk.injEq, not_and]
  norm_num

/-- C4 (amended): for viewport dimensions with nonzero width and height,
converting pixel (0,0) yields (-1, 1) and converting pixel
(width, height) yields (1, -1). -/
theorem c4_ndc_corners (w h : Int) (hw : w ≠ 0) (hh : h ≠ 0) :
    wnd_to_ndc w h 0 0 = { x := -1, y := 1 } ∧
    wnd_to_ndc w h (w : ℚ) (h : ℚ) = { x := 1, y := -1 } := by
  have hw' : (w : ℚ) ≠ 0 := Int.cast_ne_zero.mpr hw
  have hh' : (h : ℚ) ≠ 0 := Int.cast_ne_zero.mpr hh
  constructor
  · simp only [wnd_to_ndc, Vec2.mk.injEq]
    norm_num
  · simp only [wnd_to_ndc, Vec2.mk.injEq]
    constructor
    · field_simp
      norm_num
    · field_simp
      norm_num

/-- C4 witness: the corners at the initial 800×600 viewport. -/
theorem c4_ndc_corners_witness :
    wnd_to_ndc 800 600 0 0 = { x := -1, y := 1 } ∧
    wnd_to_ndc 800 600 ((800 : Int) : ℚ) ((600 : Int) : ℚ)
      = { x := 1, y := -1 } :=
  c4_ndc_corners 800 600 (by decide) (by decide)

/-- C9: The clear command leaves the mouse-held flag untouched, so if the
button is still held the very next cursor move appends its point to the
now-empty in-progress stroke unconditionally (no threshold check),
starting a new stroke mid-gesture. -/
theorem c9_clear_keeps_recording (s : AppState) (x y : ℚ)
    (h : s.mouse_down = true) :
    (clear_canvas s).mouse_down = s.mouse_down ∧
    (cursor_move x y (clear_canvas s)).current
      = [wnd_to_ndc s.win_w s.win_h x y] := by
  refine ⟨rfl, ?_⟩
  unfold cursor_move clear_canvas
  simp [h]

/-- C9 witness: pressed state, clear, then a move lands one point. -/
theorem c9_clear_keeps_recording_witness :
    (clear_canvas { initState with mouse_down := true }).mouse_down = true ∧
    (cursor_move 3 4 (clear_canvas { initState with mouse_down := true })).current
      = [wnd_to_ndc 800 600 3 4] :=
  c9_clear_keeps_recording { initState with mouse_down := true } 3 4 rfl

/-- C2: every callback preserves the spacing invariant: a point stands
next to its predecessor in the in-progress stroke only when their squared
distance exceeds the fixed threshold — appends to a non-empty current
stroke go through the threshold test, and appends to an empty one have
no predecessor. -/
theorem c2_threshold_invariant (e : Event) (s : AppState)
    (h : strokeInv s) : strokeInv (step e s) := by
  cases e with
  | press mx my =>
      exact List.chain'_singleton _
  | release =>
      unfold step mouse_release strokeInv
      by_cases hc : s.current.isEmpty
      · simpa [hc] using h
      · simp [hc, List.chain'_nil]
  | move x y =>
      simp only [step, strokeInv]
      by_cases hd : s.mouse_down
      · cases hL : s.current.getLast? with
        | none =>
            simp [cursor_move, hd, hL, List.chain'_singleton]
        | some last =>
            by_cases hfar :
                sqdist (wnd_to_ndc s.win_w s.win_h x y) last > eps
            · have hstep : cursor_move x y s =
                  { s with current :=
                      s.current ++ [wnd_to_ndc s.win_w s.win_h x y] } := by
                simp [cursor_move, hd, hL, hfar]
              rw [hstep]
              rw [List.chain'_append]
              refine ⟨h, List.chain'_singleton _, ?_⟩
              intro a ha b hb
              rw [hL] at ha
              simp only [Option.mem_def, Option.some.injEq] at ha
              simp only [List.head?_cons, Option.mem_def,
                Option.some.injEq] at hb
              subst ha
              subst hb
              exact hfar
            · have hstep : cursor_move x y s = s := by
                simp [cursor_move, hd, hL, hfar]
              rw [hstep]
              exact h
      · simpa [cursor_move, hd] using h
  | resize w h' =>
      exact h
  | clear =>
      exact List.chain'_nil

/-- C2 witness: the invariant holds initially and is kept by a press. -/
theorem c2_threshold_invariant_witness :
    strokeInv initState ∧ strokeInv (step (Event.press 1 1) initState) :=
  ⟨List.chain'_nil, c2_threshold_invariant (Event.press 1 1) initState
    List.chain'_nil⟩

/-- The `g_strokes` loop of the render pass keeps exactly the strokes
with at least two points, in order. -/
theorem renderStrokes_eq_filter (l : List (List Vec2)) :
    renderStrokes l = l.filter fun stk => decide (2 ≤ stk.length) := by
  induction l with
  | nil => rfl
  | cons stk rest ih =>
      unfold renderStrokes
      by_cases hlen : stk.length < 2
      · have hdec : decide (2 ≤ stk.length) = false := by
          simp
          omega
        simp [hlen, List.filter_cons, hdec, ih]
      · have hdec : decide (2 ≤ stk.length) = true := by
          simp
          omega
        simp [hlen, List.filter_cons, hdec, ih]

/-- C7: a frame issues one connected-line draw call for exactly the
strokes with at least two points — completed strokes and the in-progress
stroke alike, in draw order — and skips every stroke with fewer. -/
theorem c7_render_exactly_two_plus (s : AppState) :
    renderFrame s
      = (s.strokes ++ [s.current]).filter fun stk => decide (2 ≤ stk.length) := by
  unfold renderFrame
  rw [List.filter_append, renderStrokes_eq_filter]
  congr 1
  by_cases h : 2 ≤ s.current.length
  · simp [List.filter_cons, h]
  · simp [List.filter_cons, h]

/-- One cursor move while recording over a non-empty current stroke:
the flag and the finished strokes stand, the stroke stays non-empty and
well-spaced, and at most one point is added. -/
theorem cursor_move_spec (x y : ℚ) (s : AppState)
    (hd : s.mouse_down = true) (hne : s.current ≠ [])
    (hinv : List.Chain' farApart s.current) :
    (cursor_move x y s).mouse_down = true ∧
    (cursor_move x y s).strokes = s.strokes ∧
    (cursor_move x y s).current ≠ [] ∧
    List.Chain' farApart (cursor_move x y s).current ∧
    (cursor_move x y s).current.length ≤ s.current.length + 1 := by
  obtain ⟨last, hL⟩ : ∃ last, s.current.getLast? = some last := by
    cases hc : s.current.getLast? with
    | none => exact absurd (List.getLast?_eq_none_iff.mp hc) hne
    | some l => exact ⟨l, rfl⟩
  by_cases hfar : sqdist (wnd_to_ndc s.win_w s.win_h x y) last > eps
  · have hstep : cursor_move x y s =
        { s with current := s.current ++ [wnd_to_ndc s.win_w s.win_h x y] } := by
      simp [cursor_move, hd, hL, hfar]
    rw [hstep]
    refine ⟨hd, rfl, by simp, ?_, by simp⟩
    rw [List.chain'_append]
    refine ⟨hinv, List.chain'_singleton _, ?_⟩
    intro a ha b hb
    rw [hL] at ha
    simp only [Option.mem_def, Option.some.injEq] at ha
    simp only [List.head?_cons, Option.mem_def, Option.some.injEq] at hb
    subst ha
    subst hb
    exact hfar
  · have hstep : cursor_move x y s = s := by
      simp [cursor_move, hd, hL, hfar]
    rw [hstep]
    exact ⟨hd, rfl, hne, hinv, Nat.le_succ _⟩

/-- A whole run of cursor moves while recording: the flag and the
finished strokes stand, the stroke stays non-empty and well-spaced, and
each move adds at most one point. -/
theorem runMoves_spec (moves : List (ℚ × ℚ)) (s : AppState)
    (hd : s.mouse_down = true) (hne : s.current ≠ [])
    (hinv : List.Chain' farApart s.current) :
    (runEvents (moves.map fun q => Event.move q.1 q.2) s).mouse_down = true ∧
    (runEvents (moves.map fun q => Event.move q.1 q.2) s).strokes = s.strokes ∧
    (runEvents (moves.map fun q => Event.move q.1 q.2) s).current ≠ [] ∧
    List.Chain' farApart
      (runEvents (moves.map fun q => Event.move q.1 q.2) s).current ∧
    (runEvents (moves.map fun q => Event.move q.1 q.2) s).current.length
      ≤ s.current.length + moves.length := by
  induction moves generalizing s with
  | nil =>
      exact ⟨hd, rfl, hne, hinv, by simp [runEvents]⟩
  | cons q rest ih =>
      have hstep :
          runEvents ((q :: rest).map fun p => Event.move p.1 p.2) s =
            runEvents (rest.map fun p => Event.move p.1 p.2)
              (cursor_move q.1 q.2 s) := rfl
      have h1 := cursor_move_spec q.1 q.2 s hd hne hinv
      have h2 := ih (cursor_move q.1 q.2 s) h1.1 h1.2.2.1 h1.2.2.2.1
      rw [hstep]
      refine ⟨h2.1, h2.2.1.trans h1.2.1, h2.2.2.1, h2.2.2.2.1, ?_⟩
      have ha := h2.2.2.2.2
      have hb := h1.2.2.2.2
      simp only [List.length_cons]
      omega

/-- C1: a press, N moves while held, then a release appends exactly one
stroke to the completed list; it holds between 1 and N+1 points, and
every consecutive pair of its points is farther apart than the squared
threshold (so in particular every pair but possibly the first is). -/
theorem c1_gesture_stroke (mx my : ℚ) (moves : List (ℚ × ℚ)) (s : AppState) :
    ∃ stk : List Vec2,
      (runEvents (gestureEvents mx my moves) s).strokes = s.strokes ++ [stk] ∧
      1 ≤ stk.length ∧ stk.length ≤ moves.length + 1 ∧
      List.Chain' farApart stk := by
  have hsplit : runEvents (gestureEvents mx my moves) s =
      mouse_release (runEvents (moves.map fun q => Event.move q.1 q.2)
        (mouse_press mx my s)) := by
    simp [runEvents, gestureEvents, List.foldl_append, List.foldl_cons, step]
  have h1 : (mouse_press mx my s).mouse_down = true := rfl
  have hne : (mouse_press mx my s).current ≠ [] := by
    simp [mouse_press]
  have hinv : List.Chain' farApart (mouse_press mx my s).current :=
    List.chain'_singleton _
  have h2 := runMoves_spec moves (mouse_press mx my s) h1 hne hinv
  refine ⟨(runEvents (moves.map fun q => Event.move q.1 q.2)
      (mouse_press mx my s)).current, ?_, ?_, ?_, h2.2.2.2.1⟩
  · rw [hsplit]
    unfold mouse_release
    simp only [List.isEmpty_iff]
    rw [if_neg h2.2.2.1]
    have hstrokes : (runEvents (moves.map fun q => Event.move q.1 q.2)
        (mouse_press mx my s)).strokes = s.strokes := h2.2.1
    simp [hstrokes]
  · exact List.length_pos.mpr h2.2.2.1
  · have := h2.2.2.2.2
    have hlen : (mouse_press mx my s).current.length = 1 := rfl
    omega

/-- C8: failing to create the window or to load the OpenGL function
pointers is fatal — a diagnostic is written and `main` returns the
nonzero status `-1` at once — while shader compile and link failures
only write diagnostics and execution goes on into the main loop. -/
theorem c8_fatal_vs_nonfatal (e : InitEnv) :
    (e.glfwInit_ok = true → e.window_ok = false →
      (main_init e).exitCode = some (-1) ∧
      (main_init e).exitCode ≠ some 0 ∧
      "Failed to create window" ∈ (main_init e).diagnostics) ∧
    (e.glfwInit_ok = true → e.window_ok = true → e.glad_ok = false →
      (main_init e).exitCode = some (-1) ∧
      (main_init e).exitCode ≠ some 0 ∧
      "Failed to initialize GLAD" ∈ (main_init e).diagnostics) ∧
    (e.glfwInit_ok = true → e.window_ok = true → e.glad_ok = true →
      (main_init e).exitCode = none ∧
      (¬ (e.vshader_ok = true ∧ e.fshader_ok = true ∧ e.link_ok = true) →
        (main_init e).diagnostics ≠ [])) := by
  refine ⟨?_, ?_, ?_⟩
  · intro h1 h2
    simp [main_init, h1, h2]
  · intro h1 h2 h3
    simp [main_init, h1, h2, h3]
  · intro h1 h2 h3
    refine ⟨by simp [main_init, h1, h2, h3], ?_⟩
    intro hsh
    cases hv : e.vshader_ok <;> cases hf : e.fshader_ok <;>
      cases hl : e.link_ok <;>
      simp [main_init, h1, h2, h3, create_program_diag, compile_shader_diag,
        hv, hf, hl] at hsh ⊢

/-- An environment where only window creation fails. -/
def winFailEnv : InitEnv :=
  { glfwInit_ok := true, window_ok := false, glad_ok := true,
    vshader_ok := true, fshader_ok := true, link_ok := true }

/-- C8 witness: window-creation failure exits with -1 and a message. -/
theorem c8_fatal_vs_nonfatal_witness :
    (main_init winFailEnv).exitCode = some (-1) ∧
    (main_init winFailEnv).exitCode ≠ some 0 ∧
    "Failed to create window" ∈ (main_init winFailEnv).diagnostics :=
  (c8_fatal_vs_nonfatal winFailEnv).1 rfl rfl

/-- Once the `secondWindow` pointer holds a window, every further call to
`openSecondWindow` only re-shows, raises and activates it: the state is
untouched and the trace repeats the same three actions. -/
theorem openSecondWindowN_some (m i k : Nat) :
    openSecondWindowN m { secondWindow := some i, nextAlloc := k } =
      ({ secondWindow := some i, nextAlloc := k },
       (List.replicate m [WinAction.showWin i, WinAction.raiseWin i,
          WinAction.activateWin i]).flatten) := by
  induction m with
  | zero => rfl
  | succ n ih =>
      simp [openSecondWindowN, openSecondWindow, ih, List.replicate_succ]

/-- The repeated show/raise/activate trace allocates nothing. -/
theorem countP_isAlloc_repeat (m i : Nat) :
    ((List.replicate m [WinAction.showWin i, WinAction.raiseWin i,
        WinAction.activateWin i]).flatten.countP
          fun a => WinAction.isAlloc a) = 0 := by
  induction m with
  | zero => rfl
  | succ n ih =>
      simp [List.replicate_succ, List.countP_cons, List.countP_append, ih,
        WinAction.isAlloc]

/-- C10: opening the second window is idempotent: across any positive
number of invocations from a fresh `MainWindow`, exactly one
`SecondWindow` is allocated (on the first call), the stored pointer and
allocation counter never change again, and every later call only shows,
raises and activates that same window. -/
theorem c10_open_second_window (n : Nat) (hn : 1 ≤ n) :
    (openSecondWindowN n mainWindowInit).1
      = { secondWindow := some 0, nextAlloc := 1 } ∧
    (openSecondWindowN n mainWindowInit).2
      = WinAction.allocWin 0 :: WinAction.showWin 0 :: WinAction.raiseWin 0 ::
          WinAction.activateWin 0 ::
          (List.replicate (n - 1) [WinAction.showWin 0, WinAction.raiseWin 0,
            WinAction.activateWin 0]).flatten ∧
    ((openSecondWindowN n mainWindowInit).2.countP
        fun a => WinAction.isAlloc a) = 1 := by
  obtain ⟨m, rfl⟩ := Nat.exists_eq_add_of_le hn
  rw [Nat.add_comm 1 m]
  have h0 : openSecondWindow mainWindowInit =
      ({ secondWindow := some 0, nextAlloc := 1 },
       [WinAction.allocWin 0, WinAction.showWin 0, WinAction.raiseWin 0,
        WinAction.activateWin 0]) := rfl
  refine ⟨?_, ?_, ?_⟩
  · simp [openSecondWindowN, h0, openSecondWindowN_some]
  · simp [openSecondWindowN, h0, openSecondWindowN_some]
  · simp [openSecondWindowN, h0, openSecondWindowN_some, List.countP_cons,
      countP_isAlloc_repeat, WinAction.isAlloc]

/-- C10 witness: two invocations allocate once and re-show the same
window on the second call. -/
theorem c10_open_second_window_witness :
    (openSecondWindowN 2 mainWindowInit).1
      = { secondWindow := some 0, nextAlloc := 1 } ∧
    (openSecondWindowN 2 mainWindowInit).2
      = WinAction.allocWin 0 :: WinAction.showWin 0 :: WinAction.raiseWin 0 ::
          WinAction.activateWin 0 ::
          (List.replicate (2 - 1) [WinAction.showWin 0, WinAction.raiseWin 0,
            WinAction.activateWin 0]).flatten ∧
    ((openSecondWindowN 2 mainWindowInit).2.countP
        fun a => WinAction.isAlloc a) = 1 :=
  c10_open_second_window 2 (by decide)
